import Mathlib

/-!
Verification of the mafiahelper bot core (src/bot.js) against its
natural-language specification.

The JavaScript source is shallowly embedded: JS strings become Lean
`String`s (ASCII-faithful; `toLowerCase` is modelled by ASCII
`Char.toLower`), the side-effecting event handlers become pure functions
returning a record of the effects they perform (stat increments, command
lookup, command execution, messages sent to moderators), and
`process.exit(1)` after a `logger.severe(msg)` becomes an explicit
`fatal msg 1` outcome value.
-/

/-! ## JavaScript string primitives (embedded from the operations bot.js uses) -/

/-- JS `s.startsWith(pre)`: literal string-prefix test (bot.js line 147). -/
def jsStartsWith (s pre : String) : Bool :=
  pre.data.isPrefixOf s.data

/-- JS `s.substr(n)`: the suffix of `s` from index `n` (bot.js line 151). -/
def jsSubstrFrom (s : String) (n : Nat) : String :=
  ⟨s.data.drop n⟩

/-- JS `s.length` (bot.js line 151 uses `config.prefix.length`). -/
def jsLength (s : String) : Nat :=
  s.data.length

/-- JS `s.toLowerCase()`, restricted to ASCII (bot.js line 151). -/
def jsToLower (s : String) : String :=
  ⟨s.data.map Char.toLower⟩

/-- JS `s.split(sep)` for a one-character separator, on the character list:
splits at every single occurrence of `sep`; consecutive separators yield
empty segments, and the empty input yields one empty segment. -/
def splitOnChar (sep : Char) : List Char → List (List Char)
  | [] => [[]]
  | c :: rest =>
    if c = sep then
      [] :: splitOnChar sep rest
    else
      match splitOnChar sep rest with
      | [] => [[c]]
      | t :: ts => (c :: t) :: ts

/-- JS `msg.content.split(' ')` (bot.js line 150): split on each single
space character only. -/
def jsSplitSpace (s : String) : List String :=
  (splitOnChar ' ' s.data).map (fun cs => ⟨cs⟩)

/-! ## Data model -/

/-- The fields of an inbound chat message that bot.js reads:
`msg.content`, `msg.author.id`, `msg.author.bot`,
`msg.isMentioned(bot.user)` (captured as a flag), `msg.channel.id`,
`msg.guild.name`. -/
structure Msg where
  content : String
  authorId : String
  authorBot : Bool
  mentionsBot : Bool
  channelId : String
  guildName : String
deriving DecidableEq

/-- Convenience constructor for messages in a fixed channel/guild. -/
def mkMsg (content authorId : String) (bot mention : Bool) : Msg :=
  { content := content, authorId := authorId, authorBot := bot,
    mentionsBot := mention, channelId := "chan", guildName := "guild" }

/-- Modelled from the spec: the Command Registry (`Managers.CommandManager`,
whose source is not in the repository snapshot) is a name-indexed registry;
`get(nameOrAlias)` returns the matching unit or an explicit not-found result
and never throws for an unknown name. The registry is modelled as the list
of registered names/aliases and `get` as lookup in it. -/
def commandsGet (registry : List String) (name : String) : Option String :=
  if name ∈ registry then some name else none

/-- The observable effects of one run of the `bot.on('message')` handler
(bot.js lines 141-159): the stat keys incremented in order, the
`(base, args)` pair for which `commands.get(base)` was consulted (none when
the handler returned before reaching the lookup), and the `(base, args)`
pair actually executed via `commands.execute` (none when no command ran). -/
structure MsgResult where
  statIncrements : List String
  lookedUp : Option (String × List String)
  executed : Option (String × List String)
deriving DecidableEq

/-- Embedding of the `bot.on('message')` handler, bot.js lines 141-159:
increment `messages-sent`/`messages-received` by author identity, then
`mentions` if the bot is mentioned; return early when the content does not
start with the configured prefix or the author is a bot; otherwise split
the content on single spaces, take the first token minus the prefix,
lowercased, as the command name, the remaining tokens as arguments, and
execute the command when the registry resolves the name. -/
def onMessage (botUserId pfx : String) (registry : List String) (msg : Msg) :
    MsgResult :=
  let stats :=
    [if botUserId == msg.authorId then "messages-sent" else "messages-received"]
      ++ (if msg.mentionsBot then ["mentions"] else [])
  if !(jsStartsWith msg.content pfx) then
    { statIncrements := stats, lookedUp := none, executed := none }
  else if msg.authorBot then
    { statIncrements := stats, lookedUp := none, executed := none }
  else
    let split := jsSplitSpace msg.content
    let base := jsToLower (jsSubstrFrom (split.headD "") (jsLength pfx))
    let args := split.drop 1
    { statIncrements := stats,
      lookedUp := some (base, args),
      executed := (commandsGet registry base).map (fun c => (c, args)) }

/-! ## C1 / C2: the prefix filter and the bot-author filter -/

/-- C1: for every inbound message whose text does not start with the
configured command prefix, the message handler invokes no command:
`commands.get` and `commands.execute` are never reached for that message. -/
theorem no_command_without_prefix_match (b p : String) (r : List String)
    (m : Msg) (h : jsStartsWith m.content p = false) :
    (onMessage b p r m).lookedUp = none ∧ (onMessage b p r m).executed = none := by
  simp [onMessage, h]

/-- Witness for C1 at prefix "!" and content "hello". -/
theorem no_command_without_prefix_match_w :
    jsStartsWith "hello" "!" = false ∧
      ((onMessage "B" "!" ["ping"] (mkMsg "hello" "u" false false)).lookedUp = none ∧
        (onMessage "B" "!" ["ping"] (mkMsg "hello" "u" false false)).executed = none) :=
  ⟨by decide,
    no_command_without_prefix_match "B" "!" ["ping"] (mkMsg "hello" "u" false false)
      (by decide)⟩

/-- C2: a message whose author has the bot flag set never triggers command
lookup or execution, whether or not the text starts with the prefix. -/
theorem no_command_for_bot_author (b p : String) (r : List String)
    (m : Msg) (h : m.authorBot = true) :
    (onMessage b p r m).lookedUp = none ∧ (onMessage b p r m).executed = none := by
  unfold onMessage
  split
  · simp
  · simp [h]

/-- Witness for C2 at the prefixed content "!ping" authored by a bot. -/
theorem no_command_for_bot_author_w :
    (mkMsg "!ping" "u" true false).authorBot = true ∧
      ((onMessage "B" "!" ["ping"] (mkMsg "!ping" "u" true false)).lookedUp = none ∧
        (onMessage "B" "!" ["ping"] (mkMsg "!ping" "u" true false)).executed = none) :=
  ⟨by decide,
    no_command_for_bot_author "B" "!" ["ping"] (mkMsg "!ping" "u" true false)
      (by decide)⟩

/-! ## Properties of the single-character split -/

/-- `splitOnChar` always yields at least one segment (JS `split` never
returns an empty array). -/
theorem splitOnChar_ne_nil (sep : Char) (l : List Char) :
    splitOnChar sep l ≠ [] := by
  induction l with
  | nil => simp [splitOnChar]
  | cons c rest ih =>
    unfold splitOnChar
    split
    · simp
    · split <;> simp

/-- Unfolding step: a leading separator contributes one empty segment. -/
theorem splitOnChar_cons_sep (sep : Char) (rest : List Char) :
    splitOnChar sep (sep :: rest) = [] :: splitOnChar sep rest := by
  conv_lhs => rw [splitOnChar]
  rw [if_pos rfl]

/-- Unfolding step: a leading non-separator is prepended to the first
segment of the split of the rest. -/
theorem splitOnChar_cons_ne (sep c : Char) (rest : List Char) (hc : c ≠ sep) :
    splitOnChar sep (c :: rest) =
      (c :: (splitOnChar sep rest).headD []) :: (splitOnChar sep rest).tail := by
  conv_lhs => rw [splitOnChar]
  rw [if_neg hc]
  cases hs : splitOnChar sep rest with
  | nil => exact absurd hs (splitOnChar_ne_nil sep rest)
  | cons t ts => simp

/-- Splitting `l1 ++ l2` when `l1` holds no separator: `l1` is prepended
to the first segment of the split of `l2`. -/
theorem splitOnChar_append_of_no_sep (sep : Char) (l1 l2 : List Char)
    (h : ∀ c ∈ l1, c ≠ sep) :
    splitOnChar sep (l1 ++ l2) =
      (l1 ++ (splitOnChar sep l2).headD []) :: (splitOnChar sep l2).tail := by
  induction l1 with
  | nil =>
    simp only [List.nil_append]
    cases hs : splitOnChar sep l2 with
    | nil => exact absurd hs (splitOnChar_ne_nil sep l2)
    | cons t ts => simp
  | cons c cs ih =>
    have hc : c ≠ sep := h c (List.mem_cons_self c cs)
    have hcs : ∀ x ∈ cs, x ≠ sep := fun x hx => h x (List.mem_cons_of_mem c hx)
    simp only [List.cons_append]
    rw [splitOnChar_cons_ne sep c (cs ++ l2) hc, ih hcs]
    simp

/-- Core parsing lemma: for a space-free prefix `p` and space-free first
token remainder `cmd`, a message `p ++ cmd ++ " " ++ rest` passes the
prefix and bot filters (author not a bot) and reaches `commands.get` with
the name `toLowerCase cmd` and the arguments obtained by splitting `rest`
on single spaces. -/
theorem onMessage_space_parse (b p cmd : String) (r : List String)
    (rtail : List Char)
    (hp : ∀ c ∈ p.data, c ≠ ' ') (hc : ∀ c ∈ cmd.data, c ≠ ' ') :
    (onMessage b p r (mkMsg (p ++ cmd ++ ⟨' ' :: rtail⟩) "u" false false)).lookedUp
      = some (jsToLower cmd, (splitOnChar ' ' rtail).map (fun cs => ⟨cs⟩)) := by
  have hdata : (p ++ cmd ++ (⟨' ' :: rtail⟩ : String)).data
      = (p.data ++ cmd.data) ++ (' ' :: rtail) := by
    simp [String.data_append]
  have hno : ∀ c ∈ p.data ++ cmd.data, c ≠ ' ' := by
    intro c hcm
    rcases List.mem_append.mp hcm with h1 | h2
    · exact hp c h1
    · exact hc c h2
  have hpre : jsStartsWith (p ++ cmd ++ ⟨' ' :: rtail⟩) p = true := by
    unfold jsStartsWith
    rw [hdata, List.append_assoc]
    rw [List.isPrefixOf_iff_prefix]
    exact List.prefix_append _ _
  have hstep : splitOnChar ' ' (' ' :: rtail) = [] :: splitOnChar ' ' rtail :=
    splitOnChar_cons_sep ' ' rtail
  have hsplit : jsSplitSpace (p ++ cmd ++ ⟨' ' :: rtail⟩)
      = ⟨p.data ++ cmd.data⟩ :: (splitOnChar ' ' rtail).map (fun cs => ⟨cs⟩) := by
    unfold jsSplitSpace
    rw [hdata, splitOnChar_append_of_no_sep ' ' _ _ hno, hstep]
    simp
  have hbase :
      jsToLower (jsSubstrFrom (⟨p.data ++ cmd.data⟩ : String) (jsLength p))
        = jsToLower cmd := by
    unfold jsSubstrFrom jsLength
    rw [List.drop_left]
  simp only [onMessage, mkMsg, hpre, Bool.not_true, hsplit]
  simp [hbase]

/-! ## C3: name resolution and argument passing -/

/-- C3: for a non-bot message with text `prefix ++ "cmd" ++ " a b"`
(prefix and command token space-free), the router reaches the registry
with the name `cmd` (first token minus the prefix, lowercased) and the
argument list `["a", "b"]`; and in the concrete scenario with prefix `"!"`
and registered command `"ping"`, input `"!ping"` executes `"ping"` with an
empty argument list. -/
theorem router_resolves_name_and_args (b p cmd : String) (r : List String)
    (hp : ∀ c ∈ p.data, c ≠ ' ') (hc : ∀ c ∈ cmd.data, c ≠ ' ') :
    (onMessage b p r (mkMsg (p ++ cmd ++ " a b") "u" false false)).lookedUp
        = some (jsToLower cmd, ["a", "b"]) ∧
      (onMessage "B" "!" ["ping"] (mkMsg "!ping" "u" false false)).executed
        = some ("ping", []) := by
  constructor
  · have h := onMessage_space_parse b p cmd r ['a', ' ', 'b'] hp hc
    have e1 : (⟨' ' :: ['a', ' ', 'b']⟩ : String) = " a b" := rfl
    have e2 : (splitOnChar ' ' ['a', ' ', 'b']).map (fun cs => (⟨cs⟩ : String))
        = ["a", "b"] := rfl
    rw [e1, e2] at h
    exact h
  · decide

/-- Witness for C3 at prefix "!" and command token "Ping". -/
theorem router_resolves_name_and_args_w :
    (∀ c ∈ ("!" : String).data, c ≠ ' ') ∧
      (∀ c ∈ ("Ping" : String).data, c ≠ ' ') ∧
      ((onMessage "B" "!" ["ping"] (mkMsg ("!" ++ "Ping" ++ " a b") "u" false false)).lookedUp
          = some (jsToLower "Ping", ["a", "b"]) ∧
        (onMessage "B" "!" ["ping"] (mkMsg "!ping" "u" false false)).executed
          = some ("ping", [])) :=
  ⟨by decide, by decide,
    router_resolves_name_and_args "B" "!" "Ping" ["ping"] (by decide) (by decide)⟩

/-! ## C4: the delimiter is a single space, not a newline -/

/-- C4 counterexample: with prefix "!" and content "!cmd a\nb", the code
passes the single argument "a\nb" — a newline does NOT delimit tokens, so
the claimed split on "space or newline" (which would give ["a", "b"]) is
wrong. -/
theorem split_newline_counterexample :
    (onMessage "B" "!" [] (mkMsg "!cmd a\nb" "u" false false)).lookedUp
        = some ("cmd", ["a\nb"]) ∧
      (["a\nb"] : List String) ≠ ["a", "b"] := by
  decide

/-- C4 (amended): message text is split on each single SPACE character
only (a newline is not a delimiter), and consecutive spaces produce
empty-string arguments passed through unchanged: `prefix ++ cmd ++ "  a"`
yields the arguments `["", "a"]`, while `prefix ++ cmd ++ " a\nb"` yields
the single argument `"a\nb"`. -/
theorem split_on_single_space_only (b p cmd : String) (r : List String)
    (hp : ∀ c ∈ p.data, c ≠ ' ') (hc : ∀ c ∈ cmd.data, c ≠ ' ') :
    (onMessage b p r (mkMsg (p ++ cmd ++ "  a") "u" false false)).lookedUp
        = some (jsToLower cmd, ["", "a"]) ∧
      (onMessage b p r (mkMsg (p ++ cmd ++ " a\nb") "u" false false)).lookedUp
        = some (jsToLower cmd, ["a\nb"]) := by
  constructor
  · have h := onMessage_space_parse b p cmd r [' ', 'a'] hp hc
    have e1 : (⟨' ' :: [' ', 'a']⟩ : String) = "  a" := rfl
    have e2 : (splitOnChar ' ' [' ', 'a']).map (fun cs => (⟨cs⟩ : String))
        = ["", "a"] := rfl
    rw [e1, e2] at h
    exact h
  · have h := onMessage_space_parse b p cmd r ['a', '\n', 'b'] hp hc
    have e1 : (⟨' ' :: ['a', '\n', 'b']⟩ : String) = " a\nb" := rfl
    have e2 : (splitOnChar ' ' ['a', '\n', 'b']).map (fun cs => (⟨cs⟩ : String))
        = ["a\nb"] := rfl
    rw [e1, e2] at h
    exact h

/-- Witness for the amended C4 at prefix "!" and command token "cmd". -/
theorem split_on_single_space_only_w :
    (∀ c ∈ ("!" : String).data, c ≠ ' ') ∧
      (∀ c ∈ ("cmd" : String).data, c ≠ ' ') ∧
      ((onMessage "B" "!" [] (mkMsg ("!" ++ "cmd" ++ "  a") "u" false false)).lookedUp
          = some (jsToLower "cmd", ["", "a"]) ∧
        (onMessage "B" "!" [] (mkMsg ("!" ++ "cmd" ++ " a\nb") "u" false false)).lookedUp
          = some (jsToLower "cmd", ["a\nb"])) :=
  ⟨by decide, by decide,
    split_on_single_space_only "B" "!" "cmd" [] (by decide) (by decide)⟩

/-! ## C5: literal prefix stripping and silent unknown commands -/

/-- C5: the prefix is stripped exactly once as a literal string: with
prefix "!" and input "!!ping", the derived name is "!ping", which the
registry (holding only "ping") does not resolve, so nothing executes and
no error is produced (the unknown name is silently ignored). -/
theorem prefix_stripped_once_unknown_ignored :
    (onMessage "B" "!" ["ping"] (mkMsg "!!ping" "u" false false)).lookedUp
        = some ("!ping", []) ∧
      commandsGet ["ping"] "!ping" = none ∧
      (onMessage "B" "!" ["ping"] (mkMsg "!!ping" "u" false false)).executed
        = none := by
  decide

/-! ## C6 / C10: statistics recording -/

/-- The stat keys incremented by the message handler, for any message:
bot.js lines 142-145 run before any filtering. -/
theorem onMessage_statIncrements (b p : String) (r : List String) (m : Msg) :
    (onMessage b p r m).statIncrements
      = [if b == m.authorId then "messages-sent" else "messages-received"]
          ++ (if m.mentionsBot then ["mentions"] else []) := by
  simp only [onMessage]
  split
  · rfl
  · split <;> rfl

/-- C6: for every inbound message the handler records a sent stat when the
author is the bot itself and a received stat otherwise, and additionally
increments the mentions stat exactly when the bot is referenced in the
message. -/
theorem message_stats_sent_received_mentions (b p : String) (r : List String)
    (m : Msg) :
    (onMessage b p r m).statIncrements
      = [if b == m.authorId then "messages-sent" else "messages-received"]
          ++ (if m.mentionsBot then ["mentions"] else []) :=
  onMessage_statIncrements b p r m

/-- C10: the per-message stats are recorded even for messages that the
command filters then discard: for a message that fails the prefix check or
is bot-authored, no command runs, yet the same stat keys are incremented
as for any other message. -/
theorem stats_recorded_despite_filtering (b p : String) (r : List String)
    (m : Msg) (h : jsStartsWith m.content p = false ∨ m.authorBot = true) :
    (onMessage b p r m).executed = none ∧
      (onMessage b p r m).statIncrements
        = [if b == m.authorId then "messages-sent" else "messages-received"]
            ++ (if m.mentionsBot then ["mentions"] else []) := by
  refine ⟨?_, onMessage_statIncrements b p r m⟩
  rcases h with h | h
  · simp [onMessage, h]
  · unfold onMessage
    split
    · simp
    · simp [h]

/-- Witness for C10 at a bot-authored, prefixed, mentioning message. -/
theorem stats_recorded_despite_filtering_w :
    (jsStartsWith "!ping" "!" = false ∨ (mkMsg "!ping" "B" true true).authorBot = true) ∧
      ((onMessage "B" "!" ["ping"] (mkMsg "!ping" "B" true true)).executed = none ∧
        (onMessage "B" "!" ["ping"] (mkMsg "!ping" "B" true true)).statIncrements
          = [if ("B" : String) == (mkMsg "!ping" "B" true true).authorId
              then "messages-sent" else "messages-received"]
              ++ (if (mkMsg "!ping" "B" true true).mentionsBot then ["mentions"] else [])) :=
  ⟨Or.inr (by decide),
    stats_recorded_despite_filtering "B" "!" ["ping"] (mkMsg "!ping" "B" true true)
      (Or.inr (by decide))⟩

/-! ## C7: fatal startup configuration errors -/

/-- The configuration object read from config.json: the keys bot.js uses. -/
structure Config where
  botToken : String
  cmdPfx : String
deriving DecidableEq

/-- Outcome of `fse.readJsonSync(.../config.json)` at bot.js line 32:
success, a JSON `SyntaxError`, a missing file (`err.code === 'ENOENT'`),
or any other error. -/
inductive ConfigLoad
  | ok (c : Config)
  | badJson
  | missingFile
  | unknownErr
deriving DecidableEq

/-- One character of the JS regex class `[A-Za-z0-9._-]` (bot.js line 91). -/
def tokenChar (c : Char) : Bool :=
  ('A' ≤ c && c ≤ 'Z') || ('a' ≤ c && c ≤ 'z') || ('0' ≤ c && c ≤ '9')
    || c = '.' || c = '_' || c = '-'

/-- The token test at bot.js line 91: `config.botToken` must be truthy
(non-empty) and match `/^[A-Za-z0-9\._\-]+$/`. -/
def validBotToken (s : String) : Bool :=
  !s.data.isEmpty && s.data.all tokenChar

/-- Outcome of the startup sequence: `fatal msg code` models
`logger.severe(msg)` followed by `process.exit(code)`; `started` means the
process proceeds to `bot.login`. -/
inductive StartupOutcome
  | fatal (severeMsg : String) (exitCode : Nat)
  | started (c : Config)
deriving DecidableEq

/-- Diagnostic for invalid JSON (bot.js line 35). -/
def severeBadJson : String :=
  "Configuration file is not valid JSON. Please verify it\x27s contents."

/-- Diagnostic for a missing configuration file (bot.js line 37). -/
def severeMissing : String :=
  "Configuration not found. Make sure you copy config.json.example to config.json and fill it out."

/-- Diagnostic for an invalid bot token (bot.js line 92). -/
def severeBadToken : String :=
  "Config is missing a valid bot token! Please acquire one at https://discordapp.com/developers/applications/me"

/-- Embedding of the startup sequence, bot.js lines 31-43 (config load with
per-kind diagnostics and `process.exit(1)`) and 91-94 (token validation). -/
def startup : ConfigLoad → StartupOutcome
  | .badJson => .fatal severeBadJson 1
  | .missingFile => .fatal severeMissing 1
  | .unknownErr => .fatal "Unknown error loading configuration file:" 1
  | .ok c =>
    if validBotToken c.botToken then .started c else .fatal severeBadToken 1

/-- C7: a missing configuration file, invalid JSON, or a botToken failing
`^[A-Za-z0-9._-]+$` each yields a fatal outcome with exit status 1, and
the three diagnostic messages are pairwise distinct. -/
theorem startup_fatal_on_bad_config (c : Config)
    (h : validBotToken c.botToken = false) :
    startup .missingFile = .fatal severeMissing 1 ∧
      startup .badJson = .fatal severeBadJson 1 ∧
      startup (.ok c) = .fatal severeBadToken 1 ∧
      severeMissing ≠ severeBadJson ∧ severeMissing ≠ severeBadToken ∧
      severeBadJson ≠ severeBadToken := by
  refine ⟨rfl, rfl, ?_, by decide, by decide, by decide⟩
  simp [startup, h]

/-- Witness for C7 at the token "bad token" (contains a space). -/
theorem startup_fatal_on_bad_config_w :
    validBotToken "bad token" = false ∧
      (startup .missingFile = .fatal severeMissing 1 ∧
        startup .badJson = .fatal severeBadJson 1 ∧
        startup (.ok (Config.mk "bad token" "!")) = .fatal severeBadToken 1 ∧
        severeMissing ≠ severeBadJson ∧ severeMissing ≠ severeBadToken ∧
        severeBadJson ≠ severeBadToken) :=
  ⟨by decide, startup_fatal_on_bad_config (Config.mk "bad token" "!") (by decide)⟩

/-! ## C8: the ready handler re-runs on every ready event -/

/-- The one-shot initialization steps the `bot.on('ready')` handler
performs (bot.js lines 98-139): loading the command set, emitting the
startup stats snapshot, and announcing readiness. -/
inductive ReadyEffect
  | loadCommands
  | statsSnapshot
  | announceReady
deriving DecidableEq

/-- Embedding of the body of `bot.on('ready')` (bot.js lines 98-139): the
initialization steps it performs, in order. The body contains no guard or
state flag preventing re-execution. -/
def onReady : List ReadyEffect :=
  [ReadyEffect.loadCommands, ReadyEffect.statsSnapshot, ReadyEffect.announceReady]

/-- Delivering `n` ready events to the bot: the transport invokes the
registered handler body once per delivered event. -/
def runReadyEvents : Nat → List ReadyEffect
  | 0 => []
  | n + 1 => onReady ++ runReadyEvents n

/-- C8 (code bug): when a silent reconnect delivers a second ready event,
the initialization runs again — with two ready events `loadCommands` (and
each other step) happens twice, not at most once per process. -/
theorem ready_initialization_repeats :
    (runReadyEvents 2).count ReadyEffect.loadCommands = 2 ∧
      (runReadyEvents 1).count ReadyEffect.loadCommands = 1 := by
  decide

/-! ## C9: the moderation relay on edits and deletions -/

/-- The moderator and watched-channel caches `bot.mafia.mods` and
`bot.mafia.channels` (bot.js lines 49-50). -/
structure MafiaState where
  mods : List String
  channels : List String
deriving DecidableEq

/-- Embedding of `bot.on('messageUpdate')` (bot.js lines 167-182), as the
list of `(recipient, text)` direct messages sent, in order: return if the
author is a bot or the content is unchanged; if the channel is watched and
the author is not a moderator, send each moderator the edit header, the old
content, a "**New:**" marker, and the new content. -/
def onMessageUpdate (s : MafiaState) (oldMsg newMsg : Msg) :
    List (String × String) :=
  if oldMsg.authorBot then []
  else if oldMsg.content == newMsg.content then []
  else if s.channels.contains oldMsg.channelId
      && !(s.mods.contains oldMsg.authorId) then
    s.mods.flatMap (fun modid =>
      [(modid, "This message from <@" ++ oldMsg.authorId ++ "> was edited in <#"
          ++ oldMsg.channelId ++ "> on " ++ oldMsg.guildName ++ ": \n**Old**:"),
       (modid, "```" ++ oldMsg.content ++ "```"),
       (modid, "**New:**"),
       (modid, "```" ++ newMsg.content ++ "```")])
  else []

/-- Embedding of `bot.on('messageDelete')` (bot.js lines 184-196), as the
list of `(recipient, text)` direct messages sent, in order. -/
def onMessageDelete (s : MafiaState) (msg : Msg) : List (String × String) :=
  if msg.authorBot then []
  else if s.channels.contains msg.channelId
      && !(s.mods.contains msg.authorId) then
    s.mods.flatMap (fun modid =>
      [(modid, "This message from <@" ++ msg.authorId ++ "> was deleted in <#"
          ++ msg.channelId ++ "> on " ++ msg.guildName ++ ":"),
       (modid, "```" ++ msg.content ++ "```")])
  else []

/-- C9 counterexample: an edit whose old and new content are equal, by a
non-bot non-moderator in a watched channel with a nonempty moderator list:
the claim as stated requires every moderator to be notified, but the code
returns early on unchanged content and notifies nobody. -/
theorem relay_unchanged_edit_counterexample :
    (MafiaState.mk ["mod1"] ["chan1"]).mods.contains "user1" = false ∧
      (MafiaState.mk ["mod1"] ["chan1"]).channels.contains "chan1" = true ∧
      (Msg.mk "hello" "user1" false false "chan1" "g").authorBot = false ∧
      (MafiaState.mk ["mod1"] ["chan1"]).mods ≠ [] ∧
      onMessageUpdate (MafiaState.mk ["mod1"] ["chan1"])
          (Msg.mk "hello" "user1" false false "chan1" "g")
          (Msg.mk "hello" "user1" false false "chan1" "g") = [] := by
  decide

/-- C9 (amended): on an edit, every moderator is sent the old and new
content exactly when the author is not a bot, the old and new content
differ, the channel is watched, and the author is not a moderator; on a
deletion, every moderator is sent the deleted content exactly when the
author is not a bot, the channel is watched, and the author is not a
moderator; otherwise nobody is notified. -/
theorem relay_notifications_characterized (s : MafiaState) (o n m : Msg) :
    (onMessageUpdate s o n =
        if !o.authorBot && !(o.content == n.content)
            && s.channels.contains o.channelId
            && !(s.mods.contains o.authorId) then
          s.mods.flatMap (fun modid =>
            [(modid, "This message from <@" ++ o.authorId ++ "> was edited in <#"
                ++ o.channelId ++ "> on " ++ o.guildName ++ ": \n**Old**:"),
             (modid, "```" ++ o.content ++ "```"),
             (modid, "**New:**"),
             (modid, "```" ++ n.content ++ "```")])
        else []) ∧
      (onMessageDelete s m =
        if !m.authorBot && s.channels.contains m.channelId
            && !(s.mods.contains m.authorId) then
          s.mods.flatMap (fun modid =>
            [(modid, "This message from <@" ++ m.authorId ++ "> was deleted in <#"
                ++ m.channelId ++ "> on " ++ m.guildName ++ ":"),
             (modid, "```" ++ m.content ++ "```")])
        else []) := by
  constructor
  · unfold onMessageUpdate
    cases hb : o.authorBot <;> cases hcnt : o.content == n.content <;>
      cases hch : s.channels.contains o.channelId <;>
      cases hmod : s.mods.contains o.authorId <;>
        simp [hb, hcnt, hch, hmod]
  · unfold onMessageDelete
    cases hb : m.authorBot <;> cases hch : s.channels.contains m.channelId <;>
      cases hmod : s.mods.contains m.authorId <;>
        simp [hb, hch, hmod]
